import Mathlib

/-!
Verification of the fresherjobs-discord-bot core pipeline against its
natural-language specification.

The development shallowly embeds the two source files:
  * `src/scraper.py` — per-source extraction (`fetch_jobs`,
    `fetch_tnpofficer_jobs`, `fetch_offcampus_jobs`) and the combined
    aggregation (`fetch_combined_jobs`);
  * `src/bot.py` — the per-channel dedup store (`_filter_new`, `_add_seen`,
    `_load_seen`) and the delivery pipeline (`post_jobs`).

HTML documents are modelled at the level the Python code consumes them
through BeautifulSoup: a document is the collection of tables / containers /
anchors that the fixed selectors of the code would return, and each anchor
carries the text, href and nearby-image data that the code reads off the DOM.
Everything the code computes from that data (normalisation, headers matching,
skip conditions, the limit cap, the seen-set dedup, the store updates) is
translated into Lean functions.
-/

namespace FresherBot

/-- The `Job` dataclass of `src/scraper.py` (lines 18-26).  Optional fields
are `Option String`; Python `None` is `none`. -/
structure Job where
  title : String
  company : Option String
  qualification : Option String
  experience : Option String
  location : Option String
  link : String
  image_url : Option String := none
  deriving Repr, DecidableEq

/-- Python truthiness of an optional string: `None` and `""` are falsy. -/
def pyTruthyS : Option String → Bool
  | none => false
  | some s => s ≠ ""

/-- Python `a or b` on optional strings: the first operand if truthy,
otherwise the second. -/
def pyOrS (a b : Option String) : Option String :=
  if pyTruthyS a then a else b

/-- Python `needle in haystack` on strings (substring containment). -/
def substrIn (w h : String) : Bool :=
  decide (w.toList <:+: h.toList)

/-- Python `s.strip()`: drop whitespace from both ends. -/
def pyStrip (s : String) : String :=
  String.mk (((s.data.dropWhile Char.isWhitespace).reverse.dropWhile
    Char.isWhitespace).reverse)

/-- Python `s.lower()`. -/
def pyLower (s : String) : String :=
  String.mk (s.data.map Char.toLower)

/-- Python `s.startswith(p)`. -/
def pyStarts (s p : String) : Bool :=
  decide (p.data <+: s.data)

/-- Python `s.split(sep)[0]` for a non-empty separator: the characters
before the first occurrence of `sep`. -/
def pySplitHead (sep : List Char) : List Char → List Char
  | [] => []
  | c :: rest =>
    if decide (sep <+: (c :: rest)) then [] else c :: pySplitHead sep rest

/-! ## Dedup store (`src/bot.py`)

The persisted store `self._seen` has shape
`\x7b"channels": \x7b"<id>": \x7b"links": [..]\x7d\x7d\x7d`.  We model the
`"channels"` dict as an association list from channel-id strings to link
lists (a channel record `\x7b"links": ls\x7d` is modelled by `ls`).  The
association-list operations mirror Python dict semantics: lookup finds the
(unique) binding of a key, update replaces it in place, insertion appends at
the end (Python dict insertion order). -/

/-- Python `d.get(k, v0)` on a dict modelled as an association list. -/
def dictGetD {α : Type} (d : List (String × α)) (k : String) (v0 : α) : α :=
  match d with
  | [] => v0
  | p :: rest => if p.1 = k then p.2 else dictGetD rest k v0

/-- Python `d[k] = v` on a dict modelled as an association list: replaces the
binding of `k` in place, or appends a new binding at the end. -/
def dictSet {α : Type} (d : List (String × α)) (k : String) (v : α) :
    List (String × α) :=
  match d with
  | [] => [(k, v)]
  | p :: rest => if p.1 = k then (k, v) :: rest else p :: dictSet rest k v

/-- The in-memory seen store: the `"channels"` mapping of `self._seen`. -/
structure SeenStore where
  channels : List (String × List String)
  deriving Repr, DecidableEq

/-- The fresh store `\x7b"channels": \x7b\x7d\x7d` set in `__init__`. -/
def emptyStore : SeenStore := { channels := [] }

/-- Seen links of one destination: `self._seen["channels"].get(key, \x7b"links": []\x7d)`. -/
def seenLinksOf (s : SeenStore) (key : String) : List String :=
  dictGetD s.channels key []

/-- `_filter_new` (bot.py lines 170-175): reads the destination's seen set and
splits off the jobs whose `link` is not in it.  Returns the (unchanged) store
together with `(new, [j.link for j in new])`. -/
def filter_new (s : SeenStore) (channel_id : Int) (jobs : List Job) :
    SeenStore × List Job × List String :=
  let seen_links := seenLinksOf s (toString channel_id)
  let new := jobs.filter (fun j => decide (j.link ∉ seen_links))
  (s, new, new.map (·.link))

/-- `_add_seen` (bot.py lines 177-183): `setdefault` the channel record, union
the given links into it, and write the merged link list back.  Python stores
`list(set(old) | set(links))`; set iteration order is not part of any claim,
so the model fixes the order as `(old ++ links).dedup` while preserving
exactly the union's membership. -/
def add_seen (s : SeenStore) (channel_id : Int) (links : List String) :
    SeenStore :=
  let key := toString channel_id
  let old := dictGetD s.channels key []
  { channels := dictSet s.channels key ((old ++ links).dedup) }

/-! ## Delivery pipeline (`post_jobs`, bot.py lines 100-146)

The fetch step, the Discord sends and the header are external I/O; the model
takes the fetched job list as input and returns the final store together with
the list of delivered jobs.  `channel_id = getattr(destination, "id", None)`
is modelled as an `Option Int`; the two `if channel_id:` guards are Python
truthiness tests (absent id, or id `0`, are falsy). -/

/-- Python truthiness of the optional channel id. -/
def pyTruthyId : Option Int → Bool
  | none => false
  | some n => n ≠ 0

/-- The commit at the end of `post_jobs` (bot.py lines 144-146):
`if channel_id: await self._add_seen(channel_id, new_links)`. -/
def commitIfId (s : SeenStore) (cid : Option Int) (links : List String) :
    SeenStore :=
  match cid with
  | some c => if c ≠ 0 then add_seen s c links else s
  | none => s

/-- `post_jobs` (bot.py lines 100-146), state part: given the fetched jobs,
returns the final store and the jobs actually delivered (as embeds).  An
empty fetch, or an empty only-new split, sends a text message and returns
with the store untouched. -/
def post_jobs (s : SeenStore) (cid : Option Int) (fetched : List Job)
    (only_new : Bool) : SeenStore × List Job :=
  if fetched.isEmpty then (s, [])
  else if only_new && pyTruthyId cid then
    match cid with
    | some c =>
      let fr := filter_new s c fetched
      if fr.2.1.isEmpty then (fr.1, [])
      else (commitIfId fr.1 cid fr.2.2, fr.2.1)
    | none => (s, [])   -- unreachable: pyTruthyId none = false
  else
    (commitIfId s cid (fetched.map (·.link)), fetched)

/-! ## Store loading (`_load_seen`, bot.py lines 149-159)

Loading reads the store file and runs `json.loads` on it; the parsed value is
an arbitrary JSON value, modelled by `JValue`.  The load routine keeps the
parsed value as the in-memory store whenever the Python test
`"channels" in value` succeeds, and resets to the empty store otherwise
(including when `json.loads` or the `in` test raises, both caught by the
surrounding `except`). -/

/-- A JSON value as produced by `json.loads`. -/
inductive JValue where
  | obj : List (String × JValue) → JValue
  | arr : List JValue → JValue
  | str : String → JValue
  | num : Int → JValue
  | bool : Bool → JValue
  | null : JValue

/-- The empty store value `\x7b"channels": \x7b\x7d\x7d`. -/
def emptySeenJson : JValue := .obj [("channels", .obj [])]

/-- What the load step sees: the file is missing, its content is blank, the
content is not valid JSON (`json.loads` raises), or it parses to a value. -/
inductive LoadInput where
  | missing
  | blank
  | unparsable
  | parsed (v : JValue)

/-- Python `"channels" in v` for a parsed JSON value `v`: key membership on a
dict, element equality on a list, substring on a string, and a `TypeError`
(modelled as `Except.error`) on numbers, booleans and `None`. -/
def pyInChannels : JValue → Except Unit Bool
  | .obj fields => .ok (fields.any (fun p => p.1 == "channels"))
  | .arr elems => .ok (elems.any (fun e =>
      match e with
      | .str s => s == "channels"
      | _ => false))
  | .str s => .ok (substrIn "channels" s)
  | _ => .error ()

/-- `_load_seen` (bot.py lines 149-159).  `initial` is the value of
`self._seen` before the call (`\x7b"channels": \x7b\x7d\x7d` from `__init__`
at startup); a missing file or blank content leaves it untouched, an
exception anywhere in the `try` resets to the empty store, and a parsed value
is kept exactly when `"channels" in value` evaluates truthily. -/
def load_seen (initial : JValue) (inp : LoadInput) : JValue :=
  match inp with
  | .missing => initial
  | .blank => initial
  | .unparsable => emptySeenJson
  | .parsed v =>
    match pyInChannels v with
    | .error _ => emptySeenJson
    | .ok true => v
    | .ok false => emptySeenJson

/-! ## Extraction (`src/scraper.py`)

Scrape loops share one shape: walk elements in document order, convert each
to at most one `Job` record, append it, and `break` as soon as
`limit and len(jobs) >= limit` holds (note the Python truthiness: `limit = 0`
or `limit = None` disable the cap entirely).  `capLoop` is that loop without
a seen-set; `scanLoop` additionally threads the `seen` set of hrefs and the
key added on each emission; `scanOuter` is the container-level loop of the
nested scans with the same break condition re-checked after each container
(equivalent to propagating the inner `break`). -/

/-- Python `if limit and len(jobs) >= limit` (scraper.py lines 127, 174, 260,
262, 356, 399, 401). -/
def limitReached (limit : Option Nat) (n : Nat) : Bool :=
  match limit with
  | none => false
  | some l => decide (l ≠ 0) && decide (l ≤ n)

/-- A single-level scrape loop without a seen-set (the two loops of
`fetch_jobs`, scraper.py lines 86-128 and 149-175). -/
def capLoop {α : Type} (step : α → Option Job) :
    List α → Option Nat → List Job → List Job
  | [], _, acc => acc
  | x :: rest, limit, acc =>
    match step x with
    | none => capLoop step rest limit acc
    | some j =>
      let acc' := acc ++ [j]
      if limitReached limit acc'.length then acc'
      else capLoop step rest limit acc'

/-- A single-level scrape loop threading the `seen` set: `emit` returns the
job together with the key added to `seen` (always the job's href). -/
def scanLoop {α : Type} (emit : List String → α → Option (Job × String)) :
    List α → Option Nat → List String → List Job → List Job × List String
  | [], _, seen, acc => (acc, seen)
  | x :: rest, limit, seen, acc =>
    match emit seen x with
    | none => scanLoop emit rest limit seen acc
    | some (j, key) =>
      let seen' := key :: seen
      let acc' := acc ++ [j]
      if limitReached limit acc'.length then (acc', seen')
      else scanLoop emit rest limit seen' acc'

/-- The unlimited run of `scanLoop`: every element scanned in order, the
emitted jobs and the final seen set.  Used to state that the limited loops
return a prefix of this run. -/
def scanAll {α : Type} (emit : List String → α → Option (Job × String)) :
    List α → List String → List Job × List String
  | [], seen => ([], seen)
  | x :: rest, seen =>
    match emit seen x with
    | none => scanAll emit rest seen
    | some (j, key) =>
      let r := scanAll emit rest (key :: seen)
      (j :: r.1, r.2)

/-- The container-level loop of the nested scans (scraper.py lines 209-263
and 365-402): scan each container, re-checking the break condition after
each. -/
def scanOuter {α : Type} (emit : List String → α → Option (Job × String)) :
    List (List α) → Option Nat → List String → List Job →
      List Job × List String
  | [], _, seen, acc => (acc, seen)
  | c :: rest, limit, seen, acc =>
    let r := scanLoop emit c limit seen acc
    if limitReached limit r.1.length then r
    else scanOuter emit rest limit r.2 r.1

/-- The unlimited run of `scanOuter`. -/
def scanAllOuter {α : Type} (emit : List String → α → Option (Job × String)) :
    List (List α) → List String → List Job × List String
  | [], seen => ([], seen)
  | c :: rest, seen =>
    let r := scanAll emit c seen
    let r2 := scanAllOuter emit rest r.2
    (r.1 ++ r2.1, r2.2)

/-! ### FreshersNow (`fetch_jobs`, scraper.py lines 29-178)

A table is modelled as its rows of cells; a cell carries its tag (`td` or
`th`), its extracted text (`get_text(" ", strip=True)`), and the raw `href`
attribute of the first `<a href>` inside it, if any. -/

inductive CellTag where
  | td
  | th
  deriving Repr, DecidableEq

structure Cell where
  tag : CellTag
  text : String
  href : Option String
  deriving Repr, DecidableEq

structure Row where
  cells : List Cell
  deriving Repr, DecidableEq

structure Table where
  rows : List Row
  deriving Repr, DecidableEq

/-- An item of the fallback scan: the first `<a href>` inside it
(`find("a", href=True)`) and the first heading anchor
(`select_one("h2 a, h3 a")`, which may lack an `href` attribute). -/
structure Anchor where
  text : String
  href : String
  deriving Repr, DecidableEq

structure HAnchor where
  text : String
  href : Option String
  deriving Repr, DecidableEq

structure Item where
  firstA : Option Anchor
  headA : Option HAnchor
  deriving Repr, DecidableEq

/-- The FreshersNow page as consumed by `fetch_jobs`: its tables, the four
class-targeted fallback collections tried in order (lines 133-144), and the
generic catch-all selection (line 147, capped at 100 by the code). -/
structure FreshersDoc where
  tables : List Table
  articlesTypePost : List Item
  divJobList : List Item
  liJobItem : List Item
  divPost : List Item
  genericItems : List Item
  deriving Repr, DecidableEq

/-- `normalize` (scraper.py lines 54-55) applied to extracted text. -/
def normalize (s : String) : String := pyStrip s

/-- Texts of all `<th>` cells of the table (`table.find_all("th")`),
normalised and lowercased (line 59). -/
def thTexts (t : Table) : List String :=
  (((t.rows.map Row.cells).flatten).filter
      (fun c => decide (c.tag = CellTag.th))).map
    (fun c => pyLower (normalize c.text))

/-- Texts of the first row's cells (`first_row.find_all(["th", "td"])`),
normalised and lowercased (lines 62-64 and 76-77). -/
def firstRowTexts (t : Table) : List String :=
  match t.rows with
  | [] => []
  | r :: _ => r.cells.map (fun c => pyLower (normalize c.text))

/-- Header labels of a table (lines 59-64): the `<th>` texts, or the first
row's cell texts when the table has no `<th>`. -/
def tableHeaders (t : Table) : List String :=
  let hs := thTexts t
  if hs.isEmpty then firstRowTexts t else hs

/-- The expected header vocabulary (line 67). -/
def wanted : List String :=
  ["company", "job role", "qualification", "experience", "location", "apply"]

/-- Number of expected labels found among the headers (line 68). -/
def headerHits (hs : List String) : Nat :=
  (wanted.filter (fun w => hs.any (fun h => substrIn w h))).length

/-- `find_target_table` (scraper.py lines 57-71): the first table whose
headers are non-empty and match at least 4 of the 6 expected labels. -/
def find_target_table : List Table → Option Table
  | [] => none
  | t :: rest =>
    let hs := tableHeaders t
    if hs.isEmpty then find_target_table rest
    else if 4 ≤ headerHits hs then some t
    else find_target_table rest

/-- The label-to-column-index map built from the header row (lines 78-82):
for each of the six wanted keys, the first header index containing it; any
other key is absent from the dict and maps to `none`. -/
def idxMap (hs : List String) (key : String) : Option Nat :=
  if wanted.contains key then hs.findIdx? (fun h => substrIn key h) else none

/-- `get_cell_text` (lines 90-94). -/
def getCellText (hs : List String) (cells : List Cell) (key : String) :
    Option String :=
  match idxMap hs key with
  | some j =>
    if h : j < cells.length then some (normalize (cells.get ⟨j, h⟩).text)
    else none
  | none => none

/-- `get_cell_link` (lines 95-101): the stripped href of the first anchor of
the mapped cell, provided the raw attribute is non-empty. -/
def getCellLink (hs : List String) (cells : List Cell) (key : String) :
    Option String :=
  match idxMap hs key with
  | some j =>
    if h : j < cells.length then
      match (cells.get ⟨j, h⟩).href with
      | some a => if a ≠ "" then some (pyStrip a) else none
      | none => none
    else none
  | none => none

/-- One data row of the primary strategy (lines 86-126): rows with fewer than
4 cells are skipped; the title comes from the job-role column; the link from
the apply or job-role column, with the last-cell anchor as fallback; a row
lacking a truthy title or link is skipped. -/
def rowJob (hs : List String) (r : Row) : Option Job :=
  let cells := r.cells
  if cells.length < 4 then none
  else
    let company := getCellText hs cells "company"
    let title := pyOrS (pyOrS (getCellText hs cells "job role")
        (getCellText hs cells "role")) (getCellText hs cells "job")
    let qualification := getCellText hs cells "qualification"
    let experience := getCellText hs cells "experience"
    let location := getCellText hs cells "location"
    let link0 := pyOrS (getCellLink hs cells "apply")
        (getCellLink hs cells "job role")
    let link :=
      if ¬ (pyTruthyS title && pyTruthyS link0) then
        if ¬ pyTruthyS link0 then
          match cells.getLast? with
          | some c =>
            match c.href with
            | some a => some (pyStrip a)
            | none => link0
          | none => link0
        else link0
      else link0
    if pyTruthyS title && pyTruthyS link then
      some { title := title.getD "", company := company,
             qualification := qualification, experience := experience,
             location := location, link := link.getD "", image_url := none }
    else none

/-- The primary strategy of `fetch_jobs` (lines 73-128). -/
def primary_jobs (tables : List Table) (limit : Option Nat) : List Job :=
  match find_target_table tables with
  | none => []
  | some t => capLoop (rowJob (firstRowTexts t)) (t.rows.drop 1) limit []

/-- One fallback item (lines 149-173): first anchor's text/href, completed
from the heading anchor when not truthy; unlabeled fields stay `None`. -/
def itemJob (it : Item) : Option Job :=
  let title0 := it.firstA.map (·.text)
  let link0 := it.firstA.map (fun a => pyStrip a.href)
  let tl :=
    if ¬ (pyTruthyS title0 && pyTruthyS link0) then
      match it.headA with
      | some h2a =>
        match h2a.href with
        | some hr =>
          if hr ≠ "" then
            (pyOrS title0 (some h2a.text), pyOrS link0 (some (pyStrip hr)))
          else (title0, link0)
        | none => (title0, link0)
      | none => (title0, link0)
    else (title0, link0)
  if pyTruthyS tl.1 && pyTruthyS tl.2 then
    some { title := tl.1.getD "", company := none, qualification := none,
           experience := none, location := none, link := tl.2.getD "",
           image_url := none }
  else none

/-- The item collections tried by the fallback (lines 133-147). -/
def fallbackItems (d : FreshersDoc) : List Item :=
  if ¬ d.articlesTypePost.isEmpty then d.articlesTypePost
  else if ¬ d.divJobList.isEmpty then d.divJobList
  else if ¬ d.liJobItem.isEmpty then d.liJobItem
  else if ¬ d.divPost.isEmpty then d.divPost
  else d.genericItems.take 100

/-- The fallback strategy of `fetch_jobs` (lines 130-175). -/
def fallback_jobs (d : FreshersDoc) (limit : Option Nat) : List Job :=
  capLoop itemJob (fallbackItems d) limit []

/-- `fetch_jobs` (scraper.py lines 29-178), after a successful fetch: the
primary table strategy, and the heuristic fallback if it produced nothing. -/
def fetch_jobs (d : FreshersDoc) (limit : Option Nat) : List Job :=
  let jobs := primary_jobs d.tables limit
  if jobs.isEmpty then fallback_jobs d limit else jobs

/-! ### TNP Officer (`fetch_tnpofficer_jobs`, scraper.py lines 181-266)

An anchor carries its raw href, its extracted text, and the raw `src`
attribute of the image element located by the code's search chain
(`a.find("img")`, the parent's image, or `a.find_previous("img")`), `none`
when no image with a `src` is found. -/

structure TAnchor where
  href : String
  text : String
  imgSrc : Option String
  deriving Repr, DecidableEq

/-- The TNP Officer page: the containers returned by
`soup.select("article, .entry-content, .post-content, .site-content,
#content")` as their anchor lists, and the whole soup's anchors (used when
that select is empty, lines 205-206). -/
structure TnpDoc where
  selectedContainers : List (List TAnchor)
  soupAnchors : List TAnchor
  deriving Repr, DecidableEq

def tnpContainers (d : TnpDoc) : List (List TAnchor) :=
  if d.selectedContainers.isEmpty then [d.soupAnchors]
  else d.selectedContainers

/-- The non-job keyword denylist (line 219). -/
def tnpDenied (lower : String) : Bool :=
  (["mock", "course", "certification", "resources", "quick links"]).any
    (fun k => substrIn k lower)

/-- Company extraction from the title (lines 227-231): the part before the
first matching separator, stripped. -/
def tnpCompany (title : String) : Option String :=
  if substrIn " off campus" title then
    some (pyStrip (String.mk (pySplitHead " off campus".data title.data)))
  else if substrIn " Off Campus" title then
    some (pyStrip (String.mk (pySplitHead " Off Campus".data title.data)))
  else if substrIn " | " title then
    some (pyStrip (String.mk (pySplitHead " | ".data title.data)))
  else none

/-- Image-URL resolution (lines 233-247): a truthy `src` is stripped and made
absolute (`//` gets `https:`, a root-relative path gets the site origin). -/
def tnpImgUrl (imgSrc : Option String) : Option String :=
  match imgSrc with
  | none => none
  | some s =>
    if s = "" then none
    else
      let src := pyStrip s
      let src := if pyStarts src "//" then "https:" ++ src else src
      let src := if pyStarts src "/" then "https://tnpofficer.com" ++ src
        else src
      some src

/-- One anchor of the TNP Officer scan (lines 210-259): skip off-site hrefs,
short texts, denylisted texts and hrefs already seen; otherwise emit the job
and add the href to `seen`. -/
def tnpEmit (seen : List String) (a : TAnchor) : Option (Job × String) :=
  let href := pyStrip a.href
  let text := a.text
  if ¬ pyStarts href "https://tnpofficer.com/" then none
  else if text = "" || text.length < 6 then none
  else if tnpDenied (pyLower text) then none
  else if href ∈ seen then none
  else
    some ({ title := text, company := tnpCompany text, qualification := none,
            experience := none, location := none, link := href,
            image_url := tnpImgUrl a.imgSrc }, href)

/-- `fetch_tnpofficer_jobs` (scraper.py lines 181-266), after a successful
fetch. -/
def fetch_tnpofficer_jobs (d : TnpDoc) (limit : Option Nat) : List Job :=
  (scanOuter tnpEmit (tnpContainers d) limit [] []).1

/-! ### OffCampusJobs4u (`fetch_offcampus_jobs`, scraper.py lines 280-405)

A grid module (`.td_module_wrap`) carries its title anchor, its thumb
anchor, the captured `background-image` url of `span.entry-thumb`'s style
(when that span exists, has a style, and the regex matched), and the `src`
of the module's first `<img>`. -/

structure Mod where
  titleA : Option Anchor
  thumbA : Option Anchor
  entryThumbStyleCapture : Option String
  modImgSrc : Option String
  deriving Repr, DecidableEq

/-- The OffCampusJobs4u page: the `#tdi_74.td_block_inner` grid's modules
when that grid exists, plus the fallback containers and the whole soup's
anchors as for TNP Officer (lines 361-363). -/
structure OffDoc where
  grid : Option (List Mod)
  selectedContainers : List (List TAnchor)
  soupAnchors : List TAnchor
  deriving Repr, DecidableEq

def offContainers (d : OffDoc) : List (List TAnchor) :=
  if d.selectedContainers.isEmpty then [d.soupAnchors]
  else d.selectedContainers

/-- `normalize_img` (scraper.py lines 300-308). -/
def normalize_img : Option String → Option String
  | none => none
  | some src =>
    if src = "" then none
    else
      let src2 := pyStrip src
      let src3 := if pyStarts src2 "//" then "https:" ++ src2 else src2
      let src4 := if pyStarts src3 "/" then
          "https://offcampusjobs4u.com" ++ src3
        else src3
      some src4

/-- The primary-grid title denylist (line 327). -/
def offDeniedPrimary (tl : String) : Bool :=
  (["about", "advertise", "disclaimer", "privacy", "contact",
    "jobs by batch", "batch off campus"]).any (fun k => substrIn k tl)

/-- One grid module of the primary scan (lines 312-357): title from the
title anchor (falling back to the thumb anchor), image from the style capture
or the module's image; modules without a truthy image are skipped; the href
is added to `seen` on emission. -/
def offModEmit (seen : List String) (m : Mod) : Option (Job × String) :=
  let a := match m.titleA with
    | some t => some t
    | none => m.thumbA
  match a with
  | none => none
  | some a =>
    let href := pyStrip a.href
    let title := match m.titleA with
      | some t => t.text
      | none => a.text
    if ¬ pyStarts href "https://offcampusjobs4u.com/" then none
    else if title = "" || title.length < 6 then none
    else if offDeniedPrimary (pyLower title) then none
    else if href ∈ seen then none
    else
      let imgUrl1 := normalize_img m.entryThumbStyleCapture
      let imgUrl :=
        if pyTruthyS imgUrl1 then imgUrl1
        else
          match m.modImgSrc with
          | some s => if s ≠ "" then normalize_img (some s) else none
          | none => none
      if pyTruthyS imgUrl then
        some ({ title := title, company := none, qualification := none,
                experience := none, location := none, link := href,
                image_url := imgUrl }, href)
      else none

/-- The fallback-crawl text denylist (line 376). -/
def offDeniedFallback (lower : String) : Bool :=
  (["privacy", "terms", "contact", "category", "tag", "jobs by batch",
    "batch off campus", "2022", "2023", "2024",
    "2025 batch off campus"]).any (fun k => substrIn k lower)

/-- One anchor of the fallback crawl (lines 366-398); note the seen check
comes before the denylist here, and anchors without a truthy image are
skipped. -/
def offFallbackEmit (seen : List String) (a : TAnchor) :
    Option (Job × String) :=
  let href := pyStrip a.href
  let text := a.text
  if ¬ pyStarts href "https://offcampusjobs4u.com/" then none
  else if text = "" || text.length < 6 then none
  else if href ∈ seen then none
  else if offDeniedFallback (pyLower text) then none
  else
    let imgUrl := normalize_img a.imgSrc
    if pyTruthyS imgUrl then
      some ({ title := text, company := none, qualification := none,
              experience := none, location := none, link := href,
              image_url := imgUrl }, href)
    else none

/-- `fetch_offcampus_jobs` (scraper.py lines 280-405), after a successful
fetch: the exact-grid primary scan, then the generic crawl if it produced
nothing; the `seen` set persists from the primary into the fallback. -/
def fetch_offcampus_jobs (d : OffDoc) (limit : Option Nat) : List Job :=
  let pr := match d.grid with
    | some mods => scanLoop offModEmit mods limit [] []
    | none => ([], [])
  if pr.1.isEmpty then
    (scanOuter offFallbackEmit (offContainers d) limit pr.2 pr.1).1
  else pr.1

/-! ### Aggregation (`fetch_combined_jobs`, scraper.py lines 269-277)

The network layer of each `fetch_*` (`requests.get` + `raise_for_status`,
which raises on a network error, a timeout, or a non-2xx response) is
modelled as an `Except FetchError` document: parsing a fetched document
never raises, so each per-source call maps over that result.
`fetch_combined_jobs` then sequences the three calls with no exception
handling: a raised `FetchError` propagates. -/

structure FetchError where
  source : String
  cause : String
  deriving Repr, DecidableEq

/-- `fetch_jobs` including its network step. -/
def fetch_jobs_net (r : Except FetchError FreshersDoc) (limit : Option Nat) :
    Except FetchError (List Job) :=
  r.map (fun d => fetch_jobs d limit)

/-- `fetch_tnpofficer_jobs` including its network step. -/
def fetch_tnpofficer_jobs_net (r : Except FetchError TnpDoc)
    (limit : Option Nat) : Except FetchError (List Job) :=
  r.map (fun d => fetch_tnpofficer_jobs d limit)

/-- `fetch_offcampus_jobs` including its network step. -/
def fetch_offcampus_jobs_net (r : Except FetchError OffDoc)
    (limit : Option Nat) : Except FetchError (List Job) :=
  r.map (fun d => fetch_offcampus_jobs d limit)

/-- `fetch_combined_jobs` (scraper.py lines 269-277): the three sources in
fixed order, each with the same per-source limit, concatenated; any raised
`FetchError` propagates to the caller. -/
def fetch_combined_jobs (ra : Except FetchError FreshersDoc)
    (rb : Except FetchError TnpDoc) (rc : Except FetchError OffDoc)
    (limit_per_source : Nat) : Except FetchError (List Job) := do
  let a ← fetch_jobs_net ra (some limit_per_source)
  let b ← fetch_tnpofficer_jobs_net rb (some limit_per_source)
  let c ← fetch_offcampus_jobs_net rc (some limit_per_source)
  return a ++ b ++ c

/-- A concrete job used by witnesses. -/
def jobW : Job :=
  { title := "Acme off campus drive 2025", company := some "Acme",
    qualification := none, experience := none, location := none,
    link := "https://tnpofficer.com/acme-drive/", image_url := none }

/-- The failing store-file content for the load claim: the JSON document
`["channels"]`. -/
def badStoreContent : JValue := .arr [.str "channels"]

/-! ## Concrete example documents used by counterexamples and witnesses -/

/-- A FreshersNow page with no matching table and two fallback articles. -/
def exDocC3 : FreshersDoc :=
  { tables := [],
    articlesTypePost :=
      [{ firstA := some { text := "Data Analyst Walkin",
                          href := "https://example.com/j1" }, headA := none },
       { firstA := some { text := "QA Engineer Walkin",
                          href := "https://example.com/j2" }, headA := none }],
    divJobList := [], liJobItem := [], divPost := [], genericItems := [] }

/-- A TNP Officer page with five valid job anchors in one container. -/
def exTnpDoc5 : TnpDoc :=
  { selectedContainers :=
      [[{ href := "https://tnpofficer.com/a1/", text := "Acme off campus drive",
          imgSrc := none },
        { href := "https://tnpofficer.com/a2/", text := "Beta hiring freshers",
          imgSrc := none },
        { href := "https://tnpofficer.com/a3/", text := "Gamma walkin drive",
          imgSrc := none },
        { href := "https://tnpofficer.com/a4/", text := "Delta hiring 2025",
          imgSrc := none },
        { href := "https://tnpofficer.com/a5/", text := "Epsilon jobs 2025",
          imgSrc := none }]],
    soupAnchors := [] }

/-- An empty OffCampusJobs4u page. -/
def exOffDocEmpty : OffDoc :=
  { grid := none, selectedContainers := [], soupAnchors := [] }

/-- The network error of the failing source in the aggregation
counterexample. -/
def exFetchErr : FetchError := { source := "freshersnow", cause := "timeout" }

/-- A header-row cell with the given label. -/
def thCell (label : String) : Cell :=
  { tag := CellTag.th, text := label, href := none }

/-- A data cell with the given text and no anchor. -/
def tdCell (text : String) : Cell :=
  { tag := CellTag.td, text := text, href := none }

/-- A FreshersNow page whose only table matches all six expected headers but
has no data rows, while the fallback collection holds one article: the
primary strategy yields zero records and the fallback takes over. -/
def exDocC4 : FreshersDoc :=
  { tables :=
      [{ rows := [{ cells := [thCell "company", thCell "job role",
                              thCell "qualification", thCell "experience",
                              thCell "location", thCell "apply"] }] }],
    articlesTypePost :=
      [{ firstA := some { text := "Software Trainee Role",
                          href := "https://example.com/t1" }, headA := none }],
    divJobList := [], liJobItem := [], divPost := [], genericItems := [] }

/-- A FreshersNow page whose matching table also has one valid data row, so
the primary strategy produces a record. -/
def exDocC4P : FreshersDoc :=
  { tables :=
      [{ rows := [{ cells := [thCell "company", thCell "job role",
                              thCell "qualification", thCell "experience",
                              thCell "location", thCell "apply"] },
                  { cells := [tdCell "Acme", tdCell "Engineer", tdCell "BE",
                              tdCell "Fresher", tdCell "Pune",
                              { tag := CellTag.td, text := "Apply Here",
                                href := some "https://example.com/apply1" }] }] }],
    articlesTypePost := [], divJobList := [], liJobItem := [], divPost := [],
    genericItems := [] }

/-! ## Association-list lemmas -/

theorem dictGetD_dictSet_self {α : Type} (d : List (String × α)) (k : String)
    (v v0 : α) : dictGetD (dictSet d k v) k v0 = v := by
  induction d with
  | nil => simp [dictSet, dictGetD]
  | cons p rest ih =>
    by_cases h : p.1 = k
    · simp [dictSet, dictGetD, h]
    · simp [dictSet, dictGetD, h, ih]

theorem dictGetD_dictSet_ne {α : Type} (d : List (String × α)) (k k' : String)
    (v : α) (v0 : α) (h : k' ≠ k) :
    dictGetD (dictSet d k v) k' v0 = dictGetD d k' v0 := by
  have hk : ¬ (k = k') := fun hh => h hh.symm
  induction d with
  | nil => simp [dictSet, dictGetD, hk]
  | cons p rest ih =>
    by_cases hp : p.1 = k
    · simp [dictSet, dictGetD, hp, hk]
    · by_cases hp' : p.1 = k'
      · simp [dictSet, dictGetD, hp, hp', h]
      · simp [dictSet, dictGetD, hp, hp', ih]

theorem mem_seenLinksOf_add_seen (s : SeenStore) (cid : Int)
    (links : List String) (l : String) (hl : l ∈ links) :
    l ∈ seenLinksOf (add_seen s cid links) (toString cid) := by
  unfold seenLinksOf add_seen
  rw [dictGetD_dictSet_self]
  exact List.mem_dedup.mpr (List.mem_append_right _ hl)

theorem mem_seenLinksOf_add_seen_old (s : SeenStore) (cid : Int)
    (links : List String) (key : String) (l : String)
    (hl : l ∈ seenLinksOf s key) :
    l ∈ seenLinksOf (add_seen s cid links) key := by
  unfold seenLinksOf add_seen
  by_cases h : key = toString cid
  · subst h
    rw [dictGetD_dictSet_self]
    exact List.mem_dedup.mpr (List.mem_append_left _ hl)
  · rw [dictGetD_dictSet_ne _ _ _ _ _ h]
    exact hl

/-! ## Claim theorems on the dedup store and the pipeline -/

/-- C5: for every call to `filter_new(channel_id, jobs)`, the store is left
exactly as it was before the call — `filter_new` only reads the seen set and
mutates no state. -/
theorem C5_filter_new_reads_only (s : SeenStore) (cid : Int)
    (jobs : List Job) : (filter_new s cid jobs).1 = s := rfl

/-- C2: for every destination and job list, running `filter_new`, then
committing all of the jobs' links with `add_seen`, then running `filter_new`
again on the same jobs returns the empty sequence — once committed, no job
with a committed link is reported as new again. -/
theorem C2_dedup_idempotent (s : SeenStore) (cid : Int) (jobs : List Job) :
    (filter_new
        (add_seen (filter_new s cid jobs).1 cid (jobs.map (·.link)))
        cid jobs).2.1 = [] := by
  simp only [filter_new, List.filter_eq_nil_iff]
  intro j hj
  simp only [decide_eq_true_eq, not_not]
  exact mem_seenLinksOf_add_seen _ cid _ _ (List.mem_map_of_mem _ hj)

/-- C6: the seen-link set of every destination is monotonically
non-decreasing across both store operations — `filter_new` leaves every seen
set unchanged, and `add_seen` only ever adds links, never removes one. -/
theorem C6_seen_monotone (s : SeenStore) (cid cid2 : Int)
    (links : List String) (jobs : List Job) (key : String) (l : String) :
    seenLinksOf (filter_new s cid2 jobs).1 key = seenLinksOf s key ∧
    (l ∈ seenLinksOf s key → l ∈ seenLinksOf (add_seen s cid links) key) :=
  ⟨rfl, mem_seenLinksOf_add_seen_old s cid links key l⟩

/-- Witness for C6 at a concrete store: a link seen before `add_seen` is
still seen afterwards. -/
theorem C6_seen_monotone_witness :
    "https://a" ∈ seenLinksOf (SeenStore.mk [("7", ["https://a"])]) "7" ∧
    "https://a" ∈
      seenLinksOf (add_seen (SeenStore.mk [("7", ["https://a"])]) 7
        ["https://b"]) "7" :=
  ⟨by decide,
   (C6_seen_monotone (SeenStore.mk [("7", ["https://a"])]) 7 0 ["https://b"]
      [] "7" "https://a").2 (by decide)⟩

/-- C9: a pipeline run with `only_new = false` on a destination with a
(Python-truthy) identity delivers all fetched jobs and still commits every
delivered job's link to that destination's seen set afterwards. -/
theorem C9_commit_after_delivery (s : SeenStore) (c : Int)
    (fetched : List Job) (hc : c ≠ 0) (hne : fetched ≠ []) :
    (post_jobs s (some c) fetched false).2 = fetched ∧
    ∀ j ∈ fetched,
      j.link ∈ seenLinksOf (post_jobs s (some c) fetched false).1
        (toString c) := by
  have hf : fetched.isEmpty = false := by
    simpa [List.isEmpty_iff] using hne
  constructor
  · simp [post_jobs, hf]
  · intro j hj
    simp only [post_jobs, hf, Bool.false_and, Bool.false_eq_true,
      if_false, commitIfId, if_pos hc]
    exact mem_seenLinksOf_add_seen s c _ _ (List.mem_map_of_mem _ hj)

/-- Witness for C9: one job delivered to channel 5 with `only_new = false`
ends up committed in channel 5's seen set. -/
theorem C9_commit_after_delivery_witness :
    (post_jobs emptyStore (some 5) [jobW] false).2 = [jobW] ∧
    jobW.link ∈ seenLinksOf (post_jobs emptyStore (some 5) [jobW] false).1
      (toString (5 : Int)) := by
  have h := C9_commit_after_delivery emptyStore 5 [jobW] (by decide)
    (by simp)
  exact ⟨h.1, h.2 jobW (by simp)⟩

/-- C7, divergence at the failing input: the store-file content
`["channels"]` (a JSON array, which has no `"channels"` key and so lacks the
expected top-level shape) is kept verbatim as the in-memory store by
`_load_seen` instead of being reset to the empty store, because the Python
test `"channels" in value` finds the string as a list element.  The genuinely
covered cases — missing file, unparsable content, an object without the
`"channels"` key, and a value on which `in` raises `TypeError` — do reset to
(or keep) the empty store. -/
theorem C7_load_keeps_nondict_store :
    load_seen emptySeenJson (.parsed badStoreContent) = badStoreContent ∧
    badStoreContent ≠ emptySeenJson ∧
    load_seen emptySeenJson .missing = emptySeenJson ∧
    load_seen emptySeenJson .unparsable = emptySeenJson ∧
    load_seen emptySeenJson (.parsed (.obj [("destinations", .obj [])])) =
      emptySeenJson ∧
    load_seen emptySeenJson (.parsed (.num 5)) = emptySeenJson := by
  refine ⟨rfl, ?_, rfl, rfl, rfl, rfl⟩
  intro h
  exact JValue.noConfusion h

/-! ## Loop lemmas: the cap truncates a deterministic prefix -/

theorem limitReached_untruthy (limit : Option Nat)
    (h : limit = none ∨ limit = some 0) (n : Nat) :
    limitReached limit n = false := by
  rcases h with h | h <;> subst h <;> simp [limitReached]

theorem capLoop_no_cap {α : Type} (step : α → Option Job) (xs : List α)
    (limit : Option Nat) (h : ∀ n, limitReached limit n = false)
    (acc : List Job) :
    capLoop step xs limit acc = acc ++ xs.filterMap step := by
  induction xs generalizing acc with
  | nil => simp [capLoop]
  | cons x rest ih =>
    cases hx : step x with
    | none => simp [capLoop, hx, ih, List.filterMap_cons]
    | some j => simp [capLoop, hx, h, ih, List.filterMap_cons]

theorem limitReached_eq_true (l n : Nat) (h1 : l ≠ 0) (h2 : l ≤ n) :
    limitReached (some l) n = true := by
  simp [limitReached, h1, h2]

theorem limitReached_eq_false (l n : Nat) (h2 : ¬ l ≤ n) :
    limitReached (some l) n = false := by
  simp [limitReached, h2]

theorem capLoop_take {α : Type} (step : α → Option Job) (xs : List α)
    (N : Nat) (hN : N ≠ 0) :
    ∀ acc : List Job, acc.length < N →
      capLoop step xs (some N) acc =
        acc ++ (xs.filterMap step).take (N - acc.length) := by
  induction xs with
  | nil => intro acc _; simp [capLoop]
  | cons x rest ih =>
    intro acc hacc
    cases hx : step x with
    | none => simp [capLoop, hx, List.filterMap_cons, ih acc hacc]
    | some j =>
      have hsub : N - acc.length = (N - (acc.length + 1)) + 1 := by omega
      by_cases hc : N ≤ acc.length + 1
      · have hr : limitReached (some N) (acc.length + 1) = true :=
          limitReached_eq_true N _ hN hc
        have hz : N - (acc.length + 1) = 0 := by omega
        simp [capLoop, hx, hr, List.filterMap_cons, hsub, hz,
          List.take_succ_cons]
      · have hr : limitReached (some N) (acc.length + 1) = false :=
          limitReached_eq_false N _ hc
        have ih' := ih (acc ++ [j]) (by simp; omega)
        simp only [List.length_append, List.length_cons, List.length_nil,
          Nat.zero_add] at ih'
        simp [capLoop, hx, hr, ih', List.filterMap_cons, hsub,
          List.take_succ_cons]

theorem scanLoop_no_cap {α : Type}
    (emit : List String → α → Option (Job × String)) (xs : List α)
    (limit : Option Nat) (h : ∀ n, limitReached limit n = false) :
    ∀ seen acc,
      scanLoop emit xs limit seen acc =
        (acc ++ (scanAll emit xs seen).1, (scanAll emit xs seen).2) := by
  induction xs with
  | nil => intro seen acc; simp [scanLoop, scanAll]
  | cons x rest ih =>
    intro seen acc
    cases hx : emit seen x with
    | none => simp [scanLoop, scanAll, hx, ih]
    | some p => simp [scanLoop, scanAll, hx, h, ih]

theorem scanLoop_no_break {α : Type}
    (emit : List String → α → Option (Job × String)) (xs : List α)
    (N : Nat) (hN : N ≠ 0) :
    ∀ seen acc, acc.length + (scanAll emit xs seen).1.length < N →
      scanLoop emit xs (some N) seen acc =
        (acc ++ (scanAll emit xs seen).1, (scanAll emit xs seen).2) := by
  induction xs with
  | nil => intro seen acc _; simp [scanLoop, scanAll]
  | cons x rest ih =>
    intro seen acc h
    cases hx : emit seen x with
    | none =>
      simp only [scanAll, hx] at h ⊢
      simpa [scanLoop, hx] using ih seen acc h
    | some p =>
      obtain ⟨j, key⟩ := p
      simp only [scanAll, hx, List.length_cons] at h
      have hr : limitReached (some N) (acc.length + 1) = false :=
        limitReached_eq_false N _ (by omega)
      have ih' := ih (key :: seen) (acc ++ [j]) (by simp; omega)
      simp only [List.length_append, List.length_cons, List.length_nil,
        Nat.zero_add] at ih'
      simp [scanLoop, scanAll, hx, hr, ih']

theorem scanLoop_take {α : Type}
    (emit : List String → α → Option (Job × String)) (xs : List α)
    (N : Nat) (hN : N ≠ 0) :
    ∀ seen acc, acc.length < N →
      (scanLoop emit xs (some N) seen acc).1 =
        acc ++ (scanAll emit xs seen).1.take (N - acc.length) := by
  induction xs with
  | nil => intro seen acc _; simp [scanLoop, scanAll]
  | cons x rest ih =>
    intro seen acc hacc
    cases hx : emit seen x with
    | none => simp [scanLoop, scanAll, hx, ih seen acc hacc]
    | some p =>
      obtain ⟨j, key⟩ := p
      have hsub : N - acc.length = (N - (acc.length + 1)) + 1 := by omega
      by_cases hc : N ≤ acc.length + 1
      · have hr : limitReached (some N) (acc.length + 1) = true :=
          limitReached_eq_true N _ hN hc
        have hz : N - (acc.length + 1) = 0 := by omega
        simp [scanLoop, scanAll, hx, hr, hsub, hz, List.take_succ_cons]
      · have hr : limitReached (some N) (acc.length + 1) = false :=
          limitReached_eq_false N _ hc
        have ih' := ih (key :: seen) (acc ++ [j]) (by simp; omega)
        simp only [List.length_append, List.length_cons, List.length_nil,
          Nat.zero_add] at ih'
        simp [scanLoop, scanAll, hx, hr, ih', hsub, List.take_succ_cons]

theorem scanOuter_no_cap {α : Type}
    (emit : List String → α → Option (Job × String)) (cs : List (List α))
    (limit : Option Nat) (h : ∀ n, limitReached limit n = false) :
    ∀ seen acc,
      scanOuter emit cs limit seen acc =
        (acc ++ (scanAllOuter emit cs seen).1,
         (scanAllOuter emit cs seen).2) := by
  induction cs with
  | nil => intro seen acc; simp [scanOuter, scanAllOuter]
  | cons c rest ih =>
    intro seen acc
    simp [scanOuter, scanAllOuter, scanLoop_no_cap emit c limit h, h, ih]

theorem scanOuter_take {α : Type}
    (emit : List String → α → Option (Job × String)) (cs : List (List α))
    (N : Nat) (hN : N ≠ 0) :
    ∀ seen acc, acc.length < N →
      (scanOuter emit cs (some N) seen acc).1 =
        acc ++ (scanAllOuter emit cs seen).1.take (N - acc.length) := by
  induction cs with
  | nil => intro seen acc _; simp [scanOuter, scanAllOuter]
  | cons c rest ih =>
    intro seen acc hacc
    have hunf : scanOuter emit (c :: rest) (some N) seen acc =
        (if limitReached (some N)
              ((scanLoop emit c (some N) seen acc).1.length) = true
         then scanLoop emit c (some N) seen acc
         else scanOuter emit rest (some N)
                (scanLoop emit c (some N) seen acc).2
                (scanLoop emit c (some N) seen acc).1) := rfl
    have hso : (scanAllOuter emit (c :: rest) seen).1 =
        (scanAll emit c seen).1 ++
          (scanAllOuter emit rest (scanAll emit c seen).2).1 := rfl
    by_cases hbig : acc.length + (scanAll emit c seen).1.length < N
    · have hin := scanLoop_no_break emit c N hN seen acc hbig
      have hlt : (acc ++ (scanAll emit c seen).1).length < N := by
        simp only [List.length_append]
        omega
      have hr : limitReached (some N)
          (acc ++ (scanAll emit c seen).1).length = false := by
        simp only [List.length_append]
        exact limitReached_eq_false N _ (by omega)
      have ih' := ih (scanAll emit c seen).2
          (acc ++ (scanAll emit c seen).1) hlt
      rw [hunf, hin]
      dsimp only
      rw [hr, if_neg Bool.false_ne_true, ih', hso,
        List.take_append_eq_append_take,
        List.take_of_length_le (by omega :
          (scanAll emit c seen).1.length ≤ N - acc.length)]
      simp [List.length_append, Nat.sub_sub]
    · have htk := scanLoop_take emit c N hN seen acc hacc
      have hle : N - acc.length ≤ (scanAll emit c seen).1.length := by omega
      have hlen : ((scanLoop emit c (some N) seen acc).1).length = N := by
        rw [htk]
        simp only [List.length_append, List.length_take]
        omega
      have hr : limitReached (some N)
          (scanLoop emit c (some N) seen acc).1.length = true := by
        rw [hlen]
        exact limitReached_eq_true N N hN (Nat.le_refl N)
      rw [hunf, hr, if_pos rfl, htk, hso,
        List.take_append_of_le_length hle]

/-! ## Per-source prefix lemmas -/

theorem isEmpty_take_false (l : List Job) (N : Nat) (hN : N ≠ 0)
    (hl : l ≠ []) : (l.take N).isEmpty = false := by
  simp [List.isEmpty_iff, List.take_eq_nil_iff, hl, hN]

theorem primary_jobs_take (tables : List Table) (N : Nat) (hN : N ≠ 0) :
    primary_jobs tables (some N) = (primary_jobs tables none).take N := by
  unfold primary_jobs
  cases find_target_table tables with
  | none => simp
  | some t =>
    dsimp only
    rw [capLoop_take _ _ N hN [] (by simp [Nat.pos_of_ne_zero hN]),
      capLoop_no_cap _ _ none (fun _ => rfl) []]
    simp

theorem fallback_jobs_take (d : FreshersDoc) (N : Nat) (hN : N ≠ 0) :
    fallback_jobs d (some N) = (fallback_jobs d none).take N := by
  unfold fallback_jobs
  rw [capLoop_take _ _ N hN [] (by simp [Nat.pos_of_ne_zero hN]),
    capLoop_no_cap _ _ none (fun _ => rfl) []]
  simp

theorem fetch_jobs_take (d : FreshersDoc) (N : Nat) (hN : N ≠ 0) :
    fetch_jobs d (some N) = (fetch_jobs d none).take N := by
  unfold fetch_jobs
  rw [primary_jobs_take d.tables N hN]
  by_cases hp : primary_jobs d.tables none = []
  · simp [hp, fallback_jobs_take d N hN]
  · have h1 := isEmpty_take_false _ N hN hp
    have h2 : (primary_jobs d.tables none).isEmpty = false := by
      simp [List.isEmpty_iff, hp]
    simp [h1, h2]

theorem limitReached_zero (n : Nat) : limitReached (some 0) n = false := by
  simp [limitReached]

theorem primary_jobs_zero (tables : List Table) :
    primary_jobs tables (some 0) = primary_jobs tables none := by
  unfold primary_jobs
  cases find_target_table tables with
  | none => rfl
  | some t =>
    dsimp only
    rw [capLoop_no_cap _ _ (some 0) (fun n => limitReached_zero n) [],
      capLoop_no_cap _ _ none (fun _ => rfl) []]

theorem fetch_jobs_zero (d : FreshersDoc) :
    fetch_jobs d (some 0) = fetch_jobs d none := by
  unfold fetch_jobs fallback_jobs
  rw [primary_jobs_zero,
    capLoop_no_cap _ _ (some 0) (fun n => limitReached_zero n) [],
    capLoop_no_cap _ _ none (fun _ => rfl) []]

theorem fetch_tnpofficer_take (d : TnpDoc) (N : Nat) (hN : N ≠ 0) :
    fetch_tnpofficer_jobs d (some N) =
      (fetch_tnpofficer_jobs d none).take N := by
  unfold fetch_tnpofficer_jobs
  rw [scanOuter_take tnpEmit _ N hN [] [] (by simp [Nat.pos_of_ne_zero hN]),
    scanOuter_no_cap tnpEmit _ none (fun _ => rfl) [] []]
  simp

theorem fetch_tnpofficer_zero (d : TnpDoc) :
    fetch_tnpofficer_jobs d (some 0) = fetch_tnpofficer_jobs d none := by
  unfold fetch_tnpofficer_jobs
  rw [scanOuter_no_cap tnpEmit _ (some 0) (fun n => limitReached_zero n) [] [],
    scanOuter_no_cap tnpEmit _ none (fun _ => rfl) [] []]

theorem fetch_offcampus_take (d : OffDoc) (N : Nat) (hN : N ≠ 0) :
    fetch_offcampus_jobs d (some N) =
      (fetch_offcampus_jobs d none).take N := by
  unfold fetch_offcampus_jobs
  cases hg : d.grid with
  | none =>
    dsimp only
    rw [scanOuter_take offFallbackEmit _ N hN [] []
        (by simp [Nat.pos_of_ne_zero hN]),
      scanOuter_no_cap offFallbackEmit _ none (fun _ => rfl) [] []]
    simp
  | some mods =>
    dsimp only
    rw [scanLoop_no_cap offModEmit mods none (fun _ => rfl) [] []]
    by_cases hp : (scanAll offModEmit mods []).1 = []
    · have hnb := scanLoop_no_break offModEmit mods N hN [] []
        (by simp [hp, Nat.pos_of_ne_zero hN])
      rw [hnb]
      dsimp only
      simp only [hp, List.nil_append, List.isEmpty_nil, if_true]
      rw [scanOuter_take offFallbackEmit _ N hN _ []
          (by simp [Nat.pos_of_ne_zero hN]),
        scanOuter_no_cap offFallbackEmit _ none (fun _ => rfl) _ []]
      simp
    · have htk := scanLoop_take offModEmit mods N hN [] []
        (by simp [Nat.pos_of_ne_zero hN])
      have h1 : ((scanLoop offModEmit mods (some N) [] []).1).isEmpty
          = false := by
        rw [htk]
        simpa using isEmpty_take_false _ N hN hp
      have h2 : ((scanAll offModEmit mods []).1).isEmpty = false := by
        simp [List.isEmpty_iff, hp]
      dsimp only
      simp only [h1, h2, List.nil_append, Bool.false_eq_true, if_false]
      rw [htk]
      simp

theorem fetch_offcampus_zero (d : OffDoc) :
    fetch_offcampus_jobs d (some 0) = fetch_offcampus_jobs d none := by
  unfold fetch_offcampus_jobs
  cases hg : d.grid with
  | none =>
    dsimp only
    rw [scanOuter_no_cap offFallbackEmit _ (some 0)
        (fun n => limitReached_zero n) [] [],
      scanOuter_no_cap offFallbackEmit _ none (fun _ => rfl) [] []]
  | some mods =>
    dsimp only
    rw [scanLoop_no_cap offModEmit mods (some 0)
        (fun n => limitReached_zero n) [] [],
      scanLoop_no_cap offModEmit mods none (fun _ => rfl) [] []]
    dsimp only
    rw [scanOuter_no_cap offFallbackEmit _ (some 0)
        (fun n => limitReached_zero n) _ _,
      scanOuter_no_cap offFallbackEmit _ none (fun _ => rfl) _ _]

/-! ## Within-call link dedup lemmas -/

theorem nodup_append_single (l : List String) (x : String)
    (h : l.Nodup) (hx : x ∉ l) : (l ++ [x]).Nodup := by
  simp [List.nodup_append, h, hx]

theorem scanLoop_links_nodup {α : Type}
    (emit : List String → α → Option (Job × String))
    (hemit : ∀ seen x j key, emit seen x = some (j, key) →
      key = j.link ∧ key ∉ seen)
    (xs : List α) (limit : Option Nat) :
    ∀ seen acc,
      ((acc.map Job.link).Nodup ∧ ∀ l ∈ acc.map Job.link, l ∈ seen) →
      (((scanLoop emit xs limit seen acc).1.map Job.link).Nodup ∧
       (∀ l ∈ (scanLoop emit xs limit seen acc).1.map Job.link,
          l ∈ (scanLoop emit xs limit seen acc).2) ∧
       (∀ l ∈ seen, l ∈ (scanLoop emit xs limit seen acc).2)) := by
  induction xs with
  | nil =>
    intro seen acc h
    exact ⟨h.1, h.2, fun l hl => hl⟩
  | cons x rest ih =>
    intro seen acc h
    cases hx : emit seen x with
    | none =>
      simpa [scanLoop, hx] using ih seen acc h
    | some p =>
      obtain ⟨j, key⟩ := p
      obtain ⟨hkey, hnot⟩ := hemit seen x j key hx
      have hjn : j.link ∉ acc.map Job.link := by
        intro hmem
        exact hnot (by rw [hkey]; exact h.2 _ hmem)
      have hnd : ((acc ++ [j]).map Job.link).Nodup := by
        rw [List.map_append]
        exact nodup_append_single _ _ h.1 hjn
      have hsub : ∀ l ∈ (acc ++ [j]).map Job.link, l ∈ key :: seen := by
        intro l hl
        rw [List.map_append] at hl
        rcases List.mem_append.mp hl with hl | hl
        · exact List.mem_cons_of_mem _ (h.2 _ hl)
        · simp at hl
          subst hl
          rw [← hkey]
          exact List.mem_cons_self _ _
      by_cases hr : limitReached limit (acc ++ [j]).length = true
      · simp only [scanLoop, hx, hr, if_true]
        exact ⟨hnd, hsub, fun l hl => List.mem_cons_of_mem _ hl⟩
      · have hr' : limitReached limit (acc ++ [j]).length = false := by
          simpa using hr
        have ih' := ih (key :: seen) (acc ++ [j]) ⟨hnd, hsub⟩
        simp only [scanLoop, hx, hr', Bool.false_eq_true, if_false]
        exact ⟨ih'.1, ih'.2.1,
          fun l hl => ih'.2.2 l (List.mem_cons_of_mem _ hl)⟩

theorem scanOuter_links_nodup {α : Type}
    (emit : List String → α → Option (Job × String))
    (hemit : ∀ seen x j key, emit seen x = some (j, key) →
      key = j.link ∧ key ∉ seen)
    (cs : List (List α)) (limit : Option Nat) :
    ∀ seen acc,
      ((acc.map Job.link).Nodup ∧ ∀ l ∈ acc.map Job.link, l ∈ seen) →
      (((scanOuter emit cs limit seen acc).1.map Job.link).Nodup ∧
       (∀ l ∈ (scanOuter emit cs limit seen acc).1.map Job.link,
          l ∈ (scanOuter emit cs limit seen acc).2) ∧
       (∀ l ∈ seen, l ∈ (scanOuter emit cs limit seen acc).2)) := by
  induction cs with
  | nil =>
    intro seen acc h
    exact ⟨h.1, h.2, fun l hl => hl⟩
  | cons c rest ih =>
    intro seen acc h
    have hin := scanLoop_links_nodup emit hemit c limit seen acc h
    by_cases hr : limitReached limit
        (scanLoop emit c limit seen acc).1.length = true
    · simp only [scanOuter, hr, if_true]
      exact hin
    · have hr' : limitReached limit
          (scanLoop emit c limit seen acc).1.length = false := by
        simpa using hr
      have ih' := ih (scanLoop emit c limit seen acc).2
          (scanLoop emit c limit seen acc).1 ⟨hin.1, hin.2.1⟩
      simp only [scanOuter, hr', Bool.false_eq_true, if_false]
      exact ⟨ih'.1, ih'.2.1,
        fun l hl => ih'.2.2 l (hin.2.2 l hl)⟩

theorem tnpEmit_spec (seen : List String) (a : TAnchor) (j : Job)
    (key : String) (h : tnpEmit seen a = some (j, key)) :
    key = j.link ∧ key ∉ seen := by
  unfold tnpEmit at h
  dsimp only at h
  split_ifs at h <;>
    first
      | exact Option.noConfusion h
      | (rw [Option.some.injEq, Prod.mk.injEq] at h
         obtain ⟨hj, hk⟩ := h
         subst hj
         subst hk
         exact ⟨rfl, by assumption⟩)

theorem offModEmit_spec (seen : List String) (m : Mod) (j : Job)
    (key : String) (h : offModEmit seen m = some (j, key)) :
    key = j.link ∧ key ∉ seen := by
  unfold offModEmit at h
  rcases hta : m.titleA with _ | t <;> rw [hta] at h <;> dsimp only at h
  · rcases htb : m.thumbA with _ | t2 <;> rw [htb] at h <;> dsimp only at h
    · exact Option.noConfusion h
    · split_ifs at h <;>
        first
          | exact Option.noConfusion h
          | (rw [Option.some.injEq, Prod.mk.injEq] at h
             obtain ⟨hj, hk⟩ := h
             subst hj
             subst hk
             exact ⟨rfl, by assumption⟩)
  · split_ifs at h <;>
      first
        | exact Option.noConfusion h
        | (rw [Option.some.injEq, Prod.mk.injEq] at h
           obtain ⟨hj, hk⟩ := h
           subst hj
           subst hk
           exact ⟨rfl, by assumption⟩)

theorem offFallbackEmit_spec (seen : List String) (a : TAnchor) (j : Job)
    (key : String) (h : offFallbackEmit seen a = some (j, key)) :
    key = j.link ∧ key ∉ seen := by
  unfold offFallbackEmit at h
  dsimp only at h
  split_ifs at h <;>
    first
      | exact Option.noConfusion h
      | (rw [Option.some.injEq, Prod.mk.injEq] at h
         obtain ⟨hj, hk⟩ := h
         subst hj
         subst hk
         exact ⟨rfl, by assumption⟩)

/-! ## Claim theorems on extraction and aggregation -/

/-- C10: within a single extraction call, both the TNP Officer scraper and
the OffCampusJobs4u scraper emit pairwise-distinct links — an href already
emitted earlier in the same call is in the `seen` set and is skipped, so no
duplicate link appears in one result list. -/
theorem C10_extraction_links_nodup (dt : TnpDoc) (dc : OffDoc)
    (l1 l2 : Option Nat) :
    ((fetch_tnpofficer_jobs dt l1).map Job.link).Nodup ∧
    ((fetch_offcampus_jobs dc l2).map Job.link).Nodup := by
  constructor
  · unfold fetch_tnpofficer_jobs
    exact (scanOuter_links_nodup tnpEmit tnpEmit_spec (tnpContainers dt) l1
      [] [] ⟨by simp, by simp⟩).1
  · unfold fetch_offcampus_jobs
    cases hg : dc.grid with
    | none =>
      dsimp only
      simp only [List.isEmpty_nil, if_true]
      exact (scanOuter_links_nodup offFallbackEmit offFallbackEmit_spec
        (offContainers dc) l2 [] [] ⟨by simp, by simp⟩).1
    | some mods =>
      dsimp only
      have hpr := scanLoop_links_nodup offModEmit offModEmit_spec mods l2
        [] [] ⟨by simp, by simp⟩
      cases he : ((scanLoop offModEmit mods l2 [] []).1).isEmpty with
      | true =>
        simp only [he, if_true]
        exact (scanOuter_links_nodup offFallbackEmit offFallbackEmit_spec
          (offContainers dc) l2 _ _ ⟨hpr.1, hpr.2.1⟩).1
      | false =>
        simp only [he, Bool.false_eq_true, if_false]
        exact hpr.1

/-- C8: a combined aggregation call is exactly the concatenation of the
per-source results in the fixed priority order FreshersNow, TNP Officer,
OffCampusJobs4u, each source invoked with the same per-source limit, each
source's internal order preserved and never interleaved. -/
theorem C8_combined_concat (da : FreshersDoc) (db : TnpDoc) (dc : OffDoc)
    (N : Nat) :
    fetch_combined_jobs (.ok da) (.ok db) (.ok dc) N =
      .ok (fetch_jobs da (some N) ++ fetch_tnpofficer_jobs db (some N) ++
        fetch_offcampus_jobs dc (some N)) := rfl

/-- C1 counterexample: the FreshersNow fetch fails while the TNP Officer
source has 5 valid jobs; `fetch_combined_jobs` surfaces the error instead of
returning those 5 records — there is no per-source try/continue in the
code. -/
theorem C1_failure_drops_other_sources :
    (fetch_tnpofficer_jobs exTnpDoc5 (some 10)).length = 5 ∧
    fetch_combined_jobs (.error exFetchErr) (.ok exTnpDoc5)
      (.ok exOffDocEmpty) 10 = .error exFetchErr :=
  ⟨rfl, rfl⟩

/-- C1 (amended): a combined aggregation call succeeds exactly when all
three source fetches succeed, in which case it returns the concatenation;
any raised fetch failure propagates to the caller and no records are
returned at all. -/
theorem C1_error_propagates (ra : Except FetchError FreshersDoc)
    (rb : Except FetchError TnpDoc) (rc : Except FetchError OffDoc)
    (N : Nat) (l : List Job) :
    fetch_combined_jobs ra rb rc N = .ok l ↔
      ∃ da db dc, ra = .ok da ∧ rb = .ok db ∧ rc = .ok dc ∧
        l = fetch_jobs da (some N) ++ fetch_tnpofficer_jobs db (some N) ++
            fetch_offcampus_jobs dc (some N) := by
  cases ra <;> cases rb <;> cases rc <;>
    simp [fetch_combined_jobs, fetch_jobs_net, fetch_tnpofficer_jobs_net,
      fetch_offcampus_jobs_net, Except.map, bind, Except.bind, pure,
      Except.pure, eq_comm]

/-- C3 counterexample at N = 0: the cap check `if limit and len(jobs) >=
limit` treats `limit = 0` as falsy, so an extraction call with limit 0
returns all records, not at most 0. -/
theorem C3_zero_limit_not_capped :
    (fetch_jobs exDocC3 (some 0)).length = 2 ∧
    ¬ ((fetch_jobs exDocC3 (some 0)).length ≤ 0) :=
  ⟨rfl, by decide⟩

/-- C3 (amended): for every limit N ≥ 1, each extractor returns exactly the
first N records of its unlimited document-order sequence (hence at most N
records, a deterministic prefix with no re-sorting); for N = 0 the
Python-falsy limit disables the cap and the full unlimited sequence is
returned. -/
theorem C3_limit_truncation (da : FreshersDoc) (dt : TnpDoc) (dc : OffDoc)
    (N : Nat) (hN : 1 ≤ N) :
    fetch_jobs da (some N) = (fetch_jobs da none).take N ∧
    (fetch_jobs da (some N)).length ≤ N ∧
    fetch_tnpofficer_jobs dt (some N) =
      (fetch_tnpofficer_jobs dt none).take N ∧
    (fetch_tnpofficer_jobs dt (some N)).length ≤ N ∧
    fetch_offcampus_jobs dc (some N) =
      (fetch_offcampus_jobs dc none).take N ∧
    (fetch_offcampus_jobs dc (some N)).length ≤ N ∧
    fetch_jobs da (some 0) = fetch_jobs da none ∧
    fetch_tnpofficer_jobs dt (some 0) = fetch_tnpofficer_jobs dt none ∧
    fetch_offcampus_jobs dc (some 0) = fetch_offcampus_jobs dc none := by
  have hN' : N ≠ 0 := by omega
  refine ⟨fetch_jobs_take da N hN', ?_, fetch_tnpofficer_take dt N hN', ?_,
    fetch_offcampus_take dc N hN', ?_, fetch_jobs_zero da,
    fetch_tnpofficer_zero dt, fetch_offcampus_zero dc⟩
  · rw [fetch_jobs_take da N hN']
    simp [List.length_take]
  · rw [fetch_tnpofficer_take dt N hN']
    simp [List.length_take]
  · rw [fetch_offcampus_take dc N hN']
    simp [List.length_take]

/-- Witness for C3 at a concrete document and N = 1. -/
theorem C3_limit_truncation_witness :
    1 ≤ 1 ∧ fetch_jobs exDocC3 (some 1) = (fetch_jobs exDocC3 none).take 1 :=
  ⟨Nat.le_refl 1,
   (C3_limit_truncation exDocC3 exTnpDoc5 exOffDocEmpty 1 (Nat.le_refl 1)).1⟩

/-- C4 counterexample: `exDocC4` has a table matching all six expected
headers, so the container is found, but it has no data rows; the primary
strategy yields zero records and the heuristic fallback runs and produces
the result — the fallback is not "never used" when a qualifying container
exists. -/
theorem C4_matching_table_still_falls_back :
    (find_target_table exDocC4.tables).isSome = true ∧
    primary_jobs exDocC4.tables (some 20) = [] ∧
    fetch_jobs exDocC4 (some 20) = fallback_jobs exDocC4 (some 20) ∧
    fallback_jobs exDocC4 (some 20) ≠ [] :=
  ⟨rfl, rfl, rfl, by decide⟩

/-- C4 (amended): the heuristic fallback runs exactly when the primary
strategy produced zero records; whenever the primary strategy (driven by the
first container matching at least 4 of the 6 expected headers) produces at
least one record, the result is exactly those primary records and the
fallback is never used. -/
theorem C4_fallback_iff_primary_empty (d : FreshersDoc) (lim : Option Nat) :
    (primary_jobs d.tables lim ≠ [] →
      fetch_jobs d lim = primary_jobs d.tables lim) ∧
    (primary_jobs d.tables lim = [] →
      fetch_jobs d lim = fallback_jobs d lim) := by
  constructor <;> intro h <;> simp [fetch_jobs, List.isEmpty_iff, h]

/-- Witness for C4 at a concrete document whose matching table has a valid
data row: the result is the primary record, not the fallback. -/
theorem C4_fallback_iff_primary_empty_witness :
    primary_jobs exDocC4P.tables (some 20) ≠ [] ∧
    fetch_jobs exDocC4P (some 20) = primary_jobs exDocC4P.tables (some 20) :=
  ⟨by decide, (C4_fallback_iff_primary_empty exDocC4P (some 20)).1
    (by decide)⟩

end FresherBot